import Mathlib

/-!
Shallow embedding of the Content API layer of the Portfolio-Website
repository (src/Portfolio/app.py and src/Portfolio/models.py): the three
record kinds (Project, Skill, ContactMessage), the serialization used by the
JSON endpoints, and the four API operations, together with proofs of the
specification's claims about them.
-/

namespace Portfolio

/-- JSON-compatible values, as produced by Flask's jsonify. Objects are
ordered field lists, matching Python dict insertion order. -/
inductive JValue where
  | null
  | s (v : String)
  | n (v : Nat)
  | b (v : Bool)
  | arr (v : List JValue)
  | obj (v : List (String × JValue))
deriving Repr

/-- Calendar date, the value of a SQLAlchemy db.Date column
(Python datetime.date). -/
structure Date where
  year : Nat
  month : Nat
  day : Nat
deriving Repr, DecidableEq

/-- Timestamp, the value of a SQLAlchemy db.DateTime column
(Python datetime.datetime). -/
structure DateTime where
  year : Nat
  month : Nat
  day : Nat
  hour : Nat
  minute : Nat
  second : Nat
deriving Repr, DecidableEq

/-! Decimal formatting and parsing helpers, modelling Python's
strftime zero-padded numeric fields and int-from-string parsing. -/

/-- The ASCII digit character for a single decimal digit. -/
def digitChar (d : Nat) : Char := Char.ofNat (48 + d)

/-- Big-endian decimal digit characters of a natural number
(empty for 0; always used under zero padding below). -/
def natChars (n : Nat) : List Char := (Nat.digits 10 n).reverse.map digitChar

/-- Left-pad a character list with '0' to the given width, as Python's
strftime does for %Y, %m, %d, %H, %M, %S. -/
def padChars (w : Nat) (l : List Char) : List Char :=
  List.replicate (w - l.length) '0' ++ l

/-- Zero-padded decimal rendering of a natural number. -/
def padNum (w n : Nat) : String := String.mk (padChars w (natChars n))

/-- Python str.split with a one-character separator: always returns at
least one piece, and empty pieces between adjacent separators. -/
def splitOnChar (sep : Char) : List Char → List (List Char)
  | [] => [[]]
  | c :: cs =>
    if c = sep then [] :: splitOnChar sep cs
    else
      match splitOnChar sep cs with
      | [] => [[c]]
      | g :: gs => (c :: g) :: gs

/-- The join of Python str.join: interleave the separator between the pieces. -/
def joinChar (sep : Char) : List (List Char) → List Char
  | [] => []
  | [x] => x
  | x :: xs => x ++ sep :: joinChar sep xs

/-- String-level wrapper for `splitOnChar`. -/
def pySplit (sep : Char) (str : String) : List String :=
  (splitOnChar sep str.data).map String.mk

/-- String-level wrapper for `joinChar`. -/
def pyJoin (sep : Char) (parts : List String) : String :=
  String.mk (joinChar sep (parts.map String.data))

/-- Python strftime with format `%Y-%m-%d` on a date. -/
def formatDate (d : Date) : String :=
  padNum 4 d.year ++ "-" ++ padNum 2 d.month ++ "-" ++ padNum 2 d.day

/-- Python strftime with format `%Y-%m-%d %H:%M:%S` on a timestamp. -/
def formatDateTime (t : DateTime) : String :=
  padNum 4 t.year ++ "-" ++ padNum 2 t.month ++ "-" ++ padNum 2 t.day ++ " " ++
    padNum 2 t.hour ++ ":" ++ padNum 2 t.minute ++ ":" ++ padNum 2 t.second

/-- Decimal value of an ASCII digit character, none for non-digits. -/
def charToDigit? (c : Char) : Option Nat :=
  if 48 ≤ c.toNat ∧ c.toNat ≤ 57 then some (c.toNat - 48) else none

/-- Parse every character of a list as a decimal digit (big-endian). -/
def parseDigits : List Char → Option (List Nat)
  | [] => some []
  | c :: cs =>
    match charToDigit? c, parseDigits cs with
    | some d, some ds => some (d :: ds)
    | _, _ => none

/-- Parse a non-empty all-digit character list as a natural number. -/
def parseNatChars (l : List Char) : Option Nat :=
  if l.isEmpty then none
  else (parseDigits l).map fun ds => Nat.ofDigits 10 ds.reverse

/-- Parse a decimal string, in the sense of Python int(s). -/
def parseNat (s : String) : Option Nat := parseNatChars s.data

/-- Re-parse a `YYYY-MM-DD` date string: the inverse reading of
`formatDate`, splitting on the dash. -/
def parseDate (s : String) : Option Date :=
  match pySplit '-' s with
  | [ys, ms, ds] =>
    match parseNat ys, parseNat ms, parseNat ds with
    | some y, some m, some d => some ⟨y, m, d⟩
    | _, _, _ => none
  | _ => none

/-! The data model: the three record kinds of src/Portfolio/models.py. -/

/-- A row of the projects table (models.py, class Project). tech_stack is
the comma-separated string the column stores; nullable columns are Options. -/
structure Project where
  id : Nat
  title : String
  description : String
  tech_stack : String
  date_created : Option Date
  github_url : Option String
  demo_url : Option String
  image_url : Option String
  featured : Bool
  created_at : Option DateTime
deriving Repr

/-- A row of the skills table (models.py, class Skill). -/
structure Skill where
  id : Nat
  name : String
  category : String
  proficiency_level : Nat
  icon_class : Option String
  created_at : Option DateTime
deriving Repr

/-- A row of the contact_messages table (models.py, class ContactMessage). -/
structure ContactMessage where
  id : Nat
  name : String
  email : String
  subject : String
  message : String
  ip_address : Option String
  created_at : Option DateTime
  read_status : Bool
deriving Repr, DecidableEq

/-- Serialize an optional string column: None becomes JSON null. -/
def optStr : Option String → JValue
  | none => JValue.null
  | some v => JValue.s v

/-- The tech_stack serialization shared by models.py line 31 and
app.py lines 33 and 65: `tech_stack.split(',') if tech_stack else []`.
Python truthiness of a string is non-emptiness. -/
def splitTechStack (s : String) : List String :=
  if s = "" then [] else pySplit ',' s

/-- The date_created serialization of models.py line 32 and app.py
lines 34 and 66: strftime when present, null when None. -/
def serializeDate : Option Date → JValue
  | none => JValue.null
  | some d => JValue.s (formatDate d)

/-- Timestamp serialization used by the to_dict methods. -/
def serializeDateTime : Option DateTime → JValue
  | none => JValue.null
  | some t => JValue.s (formatDateTime t)

/-- Project.to_dict of models.py lines 25-38: the full ten-field
dictionary. -/
def Project.to_dict (p : Project) : List (String × JValue) :=
  [("id", JValue.n p.id),
   ("title", JValue.s p.title),
   ("description", JValue.s p.description),
   ("tech_stack", JValue.arr ((splitTechStack p.tech_stack).map JValue.s)),
   ("date_created", serializeDate p.date_created),
   ("github_url", optStr p.github_url),
   ("demo_url", optStr p.demo_url),
   ("image_url", optStr p.image_url),
   ("featured", JValue.b p.featured),
   ("created_at", serializeDateTime p.created_at)]

/-- Skill.to_dict of models.py lines 54-63. -/
def Skill.to_dict (sk : Skill) : List (String × JValue) :=
  [("id", JValue.n sk.id),
   ("name", JValue.s sk.name),
   ("category", JValue.s sk.category),
   ("proficiency_level", JValue.n sk.proficiency_level),
   ("icon_class", optStr sk.icon_class),
   ("created_at", serializeDateTime sk.created_at)]

/-- The per-project dictionary built inline by get_projects (app.py
lines 29-38) and, identically, by get_featured_projects (lines 61-69).
It has eight fields: image_url and created_at are not among them. -/
def serializeProjectApi (p : Project) : List (String × JValue) :=
  [("id", JValue.n p.id),
   ("title", JValue.s p.title),
   ("description", JValue.s p.description),
   ("tech_stack", JValue.arr ((splitTechStack p.tech_stack).map JValue.s)),
   ("date_created", serializeDate p.date_created),
   ("github_url", optStr p.github_url),
   ("demo_url", optStr p.demo_url),
   ("featured", JValue.b p.featured)]

/-- The per-skill dictionary built inline by get_skills (app.py
lines 98-103): four fields, without category or created_at. -/
def serializeSkillApi (sk : Skill) : List (String × JValue) :=
  [("id", JValue.n sk.id),
   ("name", JValue.s sk.name),
   ("proficiency_level", JValue.n sk.proficiency_level),
   ("icon_class", optStr sk.icon_class)]

/-! The four Content API operations of src/Portfolio/app.py. The store is
passed explicitly: a `Project.query.all()` on the projects table is the
stored list in insertion order, and `filter_by` is `List.filter`. -/

/-- Success body of GET /api/projects (app.py lines 40-44). -/
def get_projects (projects : List Project) : List (String × JValue) :=
  [("status", JValue.s "success"),
   ("data", JValue.obj
     [("projects",
       JValue.arr (projects.map fun p => JValue.obj (serializeProjectApi p)))]),
   ("message", JValue.s "Projects retrieved successfully")]

/-- Success body of GET /api/projects/featured (app.py lines 54-76):
the same per-project dictionary, over `filter_by(featured=True)`. -/
def get_featured_projects (projects : List Project) : List (String × JValue) :=
  [("status", JValue.s "success"),
   ("data", JValue.obj
     [("projects",
       JValue.arr ((projects.filter fun p => p.featured).map
         fun p => JValue.obj (serializeProjectApi p)))]),
   ("message", JValue.s "Featured projects retrieved successfully")]

/-- One step of the grouping loop of get_skills (app.py lines 93-103):
append the serialized skill to its category's list, creating the
category entry at the end of the dict when it is new, exactly as a
Python dict assignment does. -/
def insertGrouped (groups : List (String × List (List (String × JValue))))
    (cat : String) (v : List (String × JValue)) :
    List (String × List (List (String × JValue))) :=
  match groups with
  | [] => [(cat, [v])]
  | (c, vs) :: rest =>
    if c = cat then (c, vs ++ [v]) :: rest
    else (c, vs) :: insertGrouped rest cat v

/-- The skills_by_category dictionary built by get_skills (app.py
lines 90-103), as an insertion-ordered association list. -/
def groupSkills (skills : List Skill) :
    List (String × List (List (String × JValue))) :=
  skills.foldl (fun acc sk => insertGrouped acc sk.category (serializeSkillApi sk)) []

/-- Success body of GET /api/skills (app.py lines 105-109). -/
def get_skills (skills : List Skill) : List (String × JValue) :=
  [("status", JValue.s "success"),
   ("data", JValue.obj
     [("skills", JValue.obj
       ((groupSkills skills).map fun g => (g.1, JValue.arr (g.2.map JValue.obj))))]),
   ("message", JValue.s "Skills retrieved successfully")]

/-! The contact submission write path (app.py lines 119-160). -/

/-- The JSON body of a POST /api/contact request, with each recognized
key optional, as `data.get` sees it. -/
structure ContactInput where
  name : Option String
  email : Option String
  subject : Option String
  message : Option String
deriving Repr

/-- Python truthiness of `data.get(key)` for a string field: present and
non-empty. -/
def truthy : Option String → Bool
  | none => false
  | some s => !(s == "")

/-- Outcome of submit_contact: the response body, its HTTP status, and
the contact_messages table after the request. -/
structure SubmitResult where
  response : List (String × JValue)
  httpStatus : Nat
  store : List ContactMessage
deriving Repr

/-- Error body for a failed required-field check (app.py lines 127-133). -/
def validationErrorBody : List (String × JValue) :=
  [("status", JValue.s "error"),
   ("error", JValue.obj
     [("code", JValue.s "VALIDATION_ERROR"),
      ("message", JValue.s "Name, email, and message are required fields")])]

/-- Error body when the insert raises (app.py lines 154-160). -/
def contactDbErrorBody : List (String × JValue) :=
  [("status", JValue.s "error"),
   ("error", JValue.obj
     [("code", JValue.s "DATABASE_ERROR"),
      ("message", JValue.s "Failed to send message")])]

/-- Success body of submit_contact (app.py lines 147-150): status and
message only, no data key. -/
def contactSuccessBody : List (String × JValue) :=
  [("status", JValue.s "success"),
   ("message", JValue.s "Message sent successfully")]

/-- The submit_contact operation (app.py lines 119-160). `msgs` is the
contact_messages table before the request; `nextId` and `now` are the
identifier and timestamp the store assigns at insert; `remoteAddr` is
request.remote_addr; `data` is request.get_json() (none when the body is
not a JSON object, which Python's `not data` also rejects);
`insertFails` selects the except-branch, whose rollback discards the
in-flight add so the table is left as it was. -/
def submit_contact (msgs : List ContactMessage) (nextId : Nat)
    (now : Option DateTime) (remoteAddr : Option String)
    (data : Option ContactInput) (insertFails : Bool) : SubmitResult :=
  match data with
  | none => ⟨validationErrorBody, 400, msgs⟩
  | some d =>
    if !truthy d.name || !truthy d.email || !truthy d.message then
      ⟨validationErrorBody, 400, msgs⟩
    else if insertFails then
      ⟨contactDbErrorBody, 500, msgs⟩
    else
      ⟨contactSuccessBody, 200,
        msgs ++ [{ id := nextId,
                   name := d.name.getD "",
                   email := d.email.getD "",
                   subject := d.subject.getD "",
                   message := d.message.getD "",
                   ip_address := remoteAddr,
                   created_at := now,
                   read_status := false }]⟩

/-- Read the featured flag back out of a serialized project object. -/
def reprFeatured : JValue → Bool
  | JValue.obj fields =>
    match fields.lookup "featured" with
    | some (JValue.b b) => b
    | _ => false
  | _ => false

/-! Concrete records, mirroring the fixtures of test_models.py and
test_api.py, used to instantiate the theorems below. -/

/-- A concrete project row, as created in test_models.py. -/
def exProject : Project :=
  { id := 1, title := "Test Project", description := "A test project description",
    tech_stack := "Python,Flask,SQLite", date_created := some ⟨2025, 1, 1⟩,
    github_url := some "https://github.com/test/project", demo_url := none,
    image_url := none, featured := true, created_at := none }

/-- A concrete project row whose technology field is the empty string,
as in test_project_tech_stack_empty of test_models.py. -/
def emptyTechProject : Project :=
  { id := 2, title := "Empty Tech Stack Project",
    description := "Project with no tech stack", tech_stack := "",
    date_created := none, github_url := none, demo_url := none,
    image_url := none, featured := false, created_at := none }

/-- A concrete skill row, as created in test_models.py. -/
def exSkill : Skill :=
  { id := 1, name := "Python", category := "programming",
    proficiency_level := 4, icon_class := some "fab fa-python",
    created_at := none }

/-- The contact body of the spec's validation-failure example:
name empty, email and message present. -/
def emptyNameInput : ContactInput :=
  { name := some "", email := some "a@b.com", subject := none, message := some "hi" }

/-- The contact body of the spec's success example. -/
def johnInput : ContactInput :=
  { name := some "John Doe", email := some "john@example.com",
    subject := none, message := some "Test message" }

/-- Category names in order of first appearance, skipping those already
seen: the order in which a Python dict acquires its keys. -/
def firstSeenFrom (seen : List String) : List String → List String
  | [] => []
  | c :: cs => if c ∈ seen then firstSeenFrom seen cs else c :: firstSeenFrom (c :: seen) cs

/-! Lemmas about the split and join of delimited character lists. -/

/-- Splitting never yields an empty list of pieces. -/
theorem splitOnChar_ne_nil (sep : Char) (l : List Char) :
    splitOnChar sep l ≠ [] := by
  cases l with
  | nil => simp [splitOnChar]
  | cons c cs =>
    simp only [splitOnChar]
    split
    · simp
    · cases h : splitOnChar sep cs <;> simp

/-- Prepending a character to the first piece. -/
theorem joinChar_cons_head (sep c : Char) (g : List Char) (gs : List (List Char)) :
    joinChar sep ((c :: g) :: gs) = c :: joinChar sep (g :: gs) := by
  cases gs <;> simp [joinChar]

/-- Joining the pieces of a split restores the original character list. -/
theorem joinChar_splitOnChar (sep : Char) (l : List Char) :
    joinChar sep (splitOnChar sep l) = l := by
  induction l with
  | nil => rfl
  | cons c cs ih =>
    obtain ⟨g, gs, hg⟩ : ∃ g gs, splitOnChar sep cs = g :: gs := by
      cases hh : splitOnChar sep cs with
      | nil => exact absurd hh (splitOnChar_ne_nil sep cs)
      | cons g gs => exact ⟨g, gs, rfl⟩
    rw [hg] at ih
    simp only [splitOnChar]
    split
    · next h =>
      rw [hg]
      rw [show joinChar sep ([] :: g :: gs) = [] ++ sep :: joinChar sep (g :: gs) from rfl]
      rw [ih, h]
      rfl
    · rw [hg]
      show joinChar sep ((c :: g) :: gs) = c :: cs
      rw [joinChar_cons_head, ih]

/-- String-level form of the join-of-split round trip. -/
theorem pyJoin_pySplit (sep : Char) (s : String) :
    pyJoin sep (pySplit sep s) = s := by
  obtain ⟨l⟩ := s
  show String.mk (joinChar sep (((splitOnChar sep l).map String.mk).map String.data)) = _
  rw [List.map_map]
  rw [show (String.data ∘ String.mk) = id from rfl, List.map_id]
  rw [joinChar_splitOnChar]

/-- Splitting a list that starts with a separator-free prefix followed by a
separator peels off that prefix as the first piece. -/
theorem splitOnChar_append_sep (sep : Char) (l₁ l₂ : List Char) (h : sep ∉ l₁) :
    splitOnChar sep (l₁ ++ sep :: l₂) = l₁ :: splitOnChar sep l₂ := by
  induction l₁ with
  | nil => simp [splitOnChar]
  | cons c cs ih =>
    rw [List.mem_cons, not_or] at h
    obtain ⟨g, gs, hg⟩ : ∃ g gs, splitOnChar sep (cs ++ sep :: l₂) = g :: gs := by
      cases hh : splitOnChar sep (cs ++ sep :: l₂) with
      | nil => exact absurd hh (splitOnChar_ne_nil sep _)
      | cons g gs => exact ⟨g, gs, rfl⟩
    have ih' := ih h.2
    rw [hg] at ih'
    injection ih' with ih1 ih2
    simp only [List.cons_append, splitOnChar]
    rw [if_neg (fun hh => h.1 (by rw [hh]))]
    simp only [List.append_eq]
    rw [hg, ih1, ih2]

/-- Splitting a separator-free list yields that single piece. -/
theorem splitOnChar_no_sep (sep : Char) (l : List Char) (h : sep ∉ l) :
    splitOnChar sep l = [l] := by
  induction l with
  | nil => rfl
  | cons c cs ih =>
    rw [List.mem_cons, not_or] at h
    simp only [splitOnChar]
    rw [if_neg (fun hh => h.1 (by rw [hh]))]
    rw [ih h.2]

/-! Lemma for C6: the featured endpoint's serializer commutes with the
featured filter, read off the representation. -/

/-- The featured flag survives serialization. -/
theorem reprFeatured_serialize (p : Project) :
    reprFeatured (JValue.obj (serializeProjectApi p)) = p.featured := rfl

/-- C6: the data payload of list_featured_projects is exactly the
subsequence of the data payload of list_projects whose serialized
featured flag is true, order preserved by the filter. -/
theorem featured_projects_filter (projects : List Project) :
    (get_projects projects).lookup "data" =
      some (JValue.obj [("projects",
        JValue.arr (projects.map fun p => JValue.obj (serializeProjectApi p)))]) ∧
    (get_featured_projects projects).lookup "data" =
      some (JValue.obj [("projects",
        JValue.arr ((projects.map fun p => JValue.obj (serializeProjectApi p)).filter
          reprFeatured))]) := by
  refine ⟨rfl, ?_⟩
  have hfil : (projects.map fun p => JValue.obj (serializeProjectApi p)).filter
        reprFeatured
      = (projects.filter fun p => p.featured).map
          fun p => JValue.obj (serializeProjectApi p) := by
    rw [List.filter_map]
    rfl
  rw [hfil]
  rfl

/-! Shared helper lemmas about submit_contact. -/

/-- With all three required fields present and non-empty and a working
insert, submit_contact appends exactly one record and answers the
success body. -/
theorem submit_contact_success_eq (msgs : List ContactMessage) (nextId : Nat)
    (now : Option DateTime) (addr : Option String) (nm em ms : String)
    (sub : Option String) (hn : nm ≠ "") (he : em ≠ "") (hm : ms ≠ "") :
    submit_contact msgs nextId now addr (some ⟨some nm, some em, sub, some ms⟩) false =
      ⟨contactSuccessBody, 200,
        msgs ++ [{ id := nextId, name := nm, email := em, subject := sub.getD "",
                   message := ms, ip_address := addr, created_at := now,
                   read_status := false }]⟩ := by
  simp [submit_contact, truthy, hn, he, hm]

/-! Claim theorems. -/

/-- C1 counterexample: the representation produced by the list_projects
operation for a concrete stored project contains neither an image_url
field nor a created_at field, so it does not contain exactly the ten
claimed fields. -/
theorem get_projects_repr_missing_fields :
    "image_url" ∉ (serializeProjectApi exProject).map Prod.fst ∧
    "created_at" ∉ (serializeProjectApi exProject).map Prod.fst := by
  decide

/-- C1 (amended): the representation returned by the list_projects
operation for every Project record contains exactly the fields id,
title, description, tech_stack, date_created, github_url, demo_url, and
featured, each exactly once; the stored image_url and created_at
attributes do not appear, because the endpoint builds its own
dictionary rather than calling Project.to_dict. -/
theorem get_projects_repr_fields (projects : List Project) (p : Project) :
    (get_projects projects).lookup "data" =
      some (JValue.obj [("projects",
        JValue.arr (projects.map fun q => JValue.obj (serializeProjectApi q)))]) ∧
    (serializeProjectApi p).map Prod.fst =
      ["id", "title", "description", "tech_stack", "date_created",
       "github_url", "demo_url", "featured"] ∧
    ((serializeProjectApi p).map Prod.fst).Nodup := by
  refine ⟨rfl, rfl, ?_⟩
  rw [show (serializeProjectApi p).map Prod.fst =
    ["id", "title", "description", "tech_stack", "date_created",
     "github_url", "demo_url", "featured"] from rfl]
  decide

/-- C2 counterexample: the per-skill representation produced by the
list_skills_by_category operation for a concrete stored skill contains
neither a category field nor a created_at field, so it does not contain
exactly the six claimed fields. -/
theorem get_skills_repr_missing_fields :
    "category" ∉ (serializeSkillApi exSkill).map Prod.fst ∧
    "created_at" ∉ (serializeSkillApi exSkill).map Prod.fst := by
  decide

/-- C2 (amended): the per-skill representation returned by the
list_skills_by_category operation contains exactly the fields id, name,
proficiency_level, and icon_class, each exactly once; the skill's
category appears only as the name of its group, and created_at does not
appear, because the endpoint builds its own dictionary rather than
calling Skill.to_dict. -/
theorem get_skills_repr_fields (sk : Skill) :
    (serializeSkillApi sk).map Prod.fst =
      ["id", "name", "proficiency_level", "icon_class"] ∧
    ((serializeSkillApi sk).map Prod.fst).Nodup := by
  refine ⟨rfl, ?_⟩
  rw [show (serializeSkillApi sk).map Prod.fst =
    ["id", "name", "proficiency_level", "icon_class"] from rfl]
  decide

/-- C3: when name, email, or message is absent or the empty string,
submit_contact answers the validation-error body with HTTP status 400
and error code VALIDATION_ERROR, and leaves the contact_messages table
untouched. -/
theorem submit_contact_rejects_missing (msgs : List ContactMessage) (nextId : Nat)
    (now : Option DateTime) (addr : Option String) (d : ContactInput) (fails : Bool)
    (h : d.name = none ∨ d.name = some "" ∨ d.email = none ∨ d.email = some "" ∨
      d.message = none ∨ d.message = some "") :
    submit_contact msgs nextId now addr (some d) fails =
      ⟨validationErrorBody, 400, msgs⟩ ∧
    validationErrorBody.lookup "error" = some (JValue.obj
      [("code", JValue.s "VALIDATION_ERROR"),
       ("message", JValue.s "Name, email, and message are required fields")]) := by
  refine ⟨?_, rfl⟩
  have hcond : (!truthy d.name || !truthy d.email || !truthy d.message) = true := by
    rcases h with h | h | h | h | h | h <;> simp [truthy, h]
  simp [submit_contact, hcond]

/-- C3 witness: the spec's example input with an empty name is rejected
with status 400 and no change to an empty table. -/
theorem submit_contact_rejects_missing_witness :
    (emptyNameInput.name = none ∨ emptyNameInput.name = some "" ∨
      emptyNameInput.email = none ∨ emptyNameInput.email = some "" ∨
      emptyNameInput.message = none ∨ emptyNameInput.message = some "") ∧
    (submit_contact [] 1 none (some "127.0.0.1") (some emptyNameInput) false =
      ⟨validationErrorBody, 400, []⟩ ∧
    validationErrorBody.lookup "error" = some (JValue.obj
      [("code", JValue.s "VALIDATION_ERROR"),
       ("message", JValue.s "Name, email, and message are required fields")])) :=
  ⟨Or.inr (Or.inl rfl),
    submit_contact_rejects_missing [] 1 none (some "127.0.0.1") emptyNameInput false
      (Or.inr (Or.inl rfl))⟩

/-- C4: when the insert raises, submit_contact rolls back, answers the
database-error body with HTTP status 500 and error code DATABASE_ERROR,
and the contact_messages table after the request is exactly the table
before it. -/
theorem submit_contact_insert_failure (msgs : List ContactMessage) (nextId : Nat)
    (now : Option DateTime) (addr : Option String) (d : ContactInput)
    (hn : truthy d.name = true) (he : truthy d.email = true)
    (hm : truthy d.message = true) :
    submit_contact msgs nextId now addr (some d) true =
      ⟨contactDbErrorBody, 500, msgs⟩ ∧
    contactDbErrorBody.lookup "error" = some (JValue.obj
      [("code", JValue.s "DATABASE_ERROR"),
       ("message", JValue.s "Failed to send message")]) := by
  refine ⟨?_, rfl⟩
  simp [submit_contact, hn, he, hm]

/-- C4 witness: a failing insert on the spec's example input leaves an
empty table empty and answers the database-error body. -/
theorem submit_contact_insert_failure_witness :
    (truthy johnInput.name = true ∧ truthy johnInput.email = true ∧
      truthy johnInput.message = true) ∧
    (submit_contact [] 1 none (some "127.0.0.1") (some johnInput) true =
      ⟨contactDbErrorBody, 500, []⟩ ∧
    contactDbErrorBody.lookup "error" = some (JValue.obj
      [("code", JValue.s "DATABASE_ERROR"),
       ("message", JValue.s "Failed to send message")])) :=
  ⟨⟨rfl, rfl, rfl⟩,
    submit_contact_insert_failure [] 1 none (some "127.0.0.1") johnInput rfl rfl rfl⟩

/-- C5: on a body whose name, email and message are present and
non-empty, submit_contact appends exactly one ContactMessage carrying
those fields, the subject defaulting to the empty string when absent,
and the captured origin address, and answers the success body, which
has no data key. -/
theorem submit_contact_persists (msgs : List ContactMessage) (nextId : Nat)
    (now : Option DateTime) (addr : Option String) (nm em ms : String)
    (sub : Option String) (hn : nm ≠ "") (he : em ≠ "") (hm : ms ≠ "") :
    submit_contact msgs nextId now addr (some ⟨some nm, some em, sub, some ms⟩) false =
      ⟨contactSuccessBody, 200,
        msgs ++ [{ id := nextId, name := nm, email := em, subject := sub.getD "",
                   message := ms, ip_address := addr, created_at := now,
                   read_status := false }]⟩ ∧
    contactSuccessBody.lookup "data" = none ∧
    contactSuccessBody.lookup "status" = some (JValue.s "success") :=
  ⟨submit_contact_success_eq msgs nextId now addr nm em ms sub hn he hm, rfl, rfl⟩

/-- C5 witness: the spec's success example appended to an empty table. -/
theorem submit_contact_persists_witness :
    ("John Doe" ≠ "" ∧ "john@example.com" ≠ "" ∧ "Test message" ≠ "") ∧
    (submit_contact [] 1 none (some "127.0.0.1")
        (some ⟨some "John Doe", some "john@example.com", none, some "Test message"⟩)
        false =
      ⟨contactSuccessBody, 200,
        [{ id := 1, name := "John Doe", email := "john@example.com", subject := "",
           message := "Test message", ip_address := some "127.0.0.1",
           created_at := none, read_status := false }]⟩ ∧
    contactSuccessBody.lookup "data" = none ∧
    contactSuccessBody.lookup "status" = some (JValue.s "success")) :=
  ⟨⟨by decide, by decide, by decide⟩,
    submit_contact_persists [] 1 none (some "127.0.0.1") "John Doe"
      "john@example.com" "Test message" none (by decide) (by decide) (by decide)⟩

/-- C8: a Project whose stored technology field is the empty string
serializes to an empty tech_stack sequence, both in the endpoint's
inline dictionary and in Project.to_dict, and never to a one-element
sequence holding the empty string. -/
theorem empty_tech_stack_serializes_empty (p : Project) (h : p.tech_stack = "") :
    (serializeProjectApi p).lookup "tech_stack" = some (JValue.arr []) ∧
    (Project.to_dict p).lookup "tech_stack" = some (JValue.arr []) ∧
    (serializeProjectApi p).lookup "tech_stack" ≠
      some (JValue.arr [JValue.s ""]) := by
  have hs : splitTechStack p.tech_stack = [] := by rw [h]; rfl
  have h1 : (serializeProjectApi p).lookup "tech_stack"
      = some (JValue.arr ((splitTechStack p.tech_stack).map JValue.s)) := rfl
  have h2 : (Project.to_dict p).lookup "tech_stack"
      = some (JValue.arr ((splitTechStack p.tech_stack).map JValue.s)) := rfl
  rw [h1, h2, hs]
  refine ⟨rfl, rfl, ?_⟩
  simp

/-- C8 witness: the concrete empty-technology project from the tests. -/
theorem empty_tech_stack_serializes_empty_witness :
    emptyTechProject.tech_stack = "" ∧
    ((serializeProjectApi emptyTechProject).lookup "tech_stack" =
        some (JValue.arr []) ∧
    (Project.to_dict emptyTechProject).lookup "tech_stack" =
        some (JValue.arr []) ∧
    (serializeProjectApi emptyTechProject).lookup "tech_stack" ≠
      some (JValue.arr [JValue.s ""])) :=
  ⟨rfl, empty_tech_stack_serializes_empty emptyTechProject rfl⟩

/-- C10: the required-field check tests only Python truthiness, so
whitespace-only name, email and message pass validation and a
ContactMessage carrying those whitespace-only fields is appended to the
table. -/
theorem submit_contact_accepts_whitespace (msgs : List ContactMessage) (nextId : Nat)
    (now : Option DateTime) (addr : Option String) (nm em ms : String)
    (sub : Option String)
    (hn : nm.data ≠ [] ∧ ∀ c ∈ nm.data, c.isWhitespace)
    (he : em.data ≠ [] ∧ ∀ c ∈ em.data, c.isWhitespace)
    (hm : ms.data ≠ [] ∧ ∀ c ∈ ms.data, c.isWhitespace) :
    submit_contact msgs nextId now addr (some ⟨some nm, some em, sub, some ms⟩) false =
      ⟨contactSuccessBody, 200,
        msgs ++ [{ id := nextId, name := nm, email := em, subject := sub.getD "",
                   message := ms, ip_address := addr, created_at := now,
                   read_status := false }]⟩ := by
  have hnm : nm ≠ "" := fun hh => hn.1 (by rw [hh])
  have hem : em ≠ "" := fun hh => he.1 (by rw [hh])
  have hms : ms ≠ "" := fun hh => hm.1 (by rw [hh])
  exact submit_contact_success_eq msgs nextId now addr nm em ms sub hnm hem hms

/-- C10 witness: single-space name, email and message are accepted and
persisted verbatim. -/
theorem submit_contact_accepts_whitespace_witness :
    ((" " : String).data ≠ [] ∧ ∀ c ∈ (" " : String).data, c.isWhitespace) ∧
    submit_contact [] 1 none (some "127.0.0.1")
        (some ⟨some " ", some " ", none, some " "⟩) false =
      ⟨contactSuccessBody, 200,
        [{ id := 1, name := " ", email := " ", subject := "",
           message := " ", ip_address := some "127.0.0.1",
           created_at := none, read_status := false }]⟩ :=
  ⟨⟨by decide, by decide⟩,
    submit_contact_accepts_whitespace [] 1 none (some "127.0.0.1") " " " " " " none
      ⟨by decide, by decide⟩ ⟨by decide, by decide⟩ ⟨by decide, by decide⟩⟩

/-! Lemmas about decimal formatting and parsing, used for the
date round trip of C9. -/

/-- Parsing the character of a single decimal digit recovers the digit. -/
theorem charToDigit_digitChar (d : Nat) (hd : d < 10) :
    charToDigit? (digitChar d) = some d := by
  interval_cases d <;> decide

/-- Digit characters of decimal digits are not the dash separator. -/
theorem digitChar_ne_dash (d : Nat) (hd : d < 10) : digitChar d ≠ '-' := by
  interval_cases d <;> decide

/-- Parsing distributes over appending two parsable digit runs. -/
theorem parseDigits_append (l₁ l₂ : List Char) (ds₁ ds₂ : List Nat)
    (h₁ : parseDigits l₁ = some ds₁) (h₂ : parseDigits l₂ = some ds₂) :
    parseDigits (l₁ ++ l₂) = some (ds₁ ++ ds₂) := by
  induction l₁ generalizing ds₁ with
  | nil =>
    simp only [parseDigits, Option.some.injEq] at h₁
    rw [← h₁]
    simpa using h₂
  | cons c cs ih =>
    simp only [parseDigits] at h₁
    cases hc : charToDigit? c with
    | none => rw [hc] at h₁; exact absurd h₁ (by simp)
    | some d =>
      rw [hc] at h₁
      cases hcs : parseDigits cs with
      | none => rw [hcs] at h₁; exact absurd h₁ (by simp)
      | some ds =>
        rw [hcs] at h₁
        simp only [Option.some.injEq] at h₁
        have hrec := ih ds hcs
        rw [List.cons_append]
        simp only [parseDigits, hc, List.append_eq, hrec]
        simp [← h₁]

/-- A run of zero characters parses to a run of zero digits. -/
theorem parseDigits_replicate_zero (k : Nat) :
    parseDigits (List.replicate k '0') = some (List.replicate k 0) := by
  induction k with
  | zero => rfl
  | succ n ih =>
    rw [List.replicate_succ, List.replicate_succ]
    simp only [parseDigits, ih]
    rfl

/-- Mapping digits below ten to characters and parsing back is the
identity. -/
theorem parseDigits_map_digitChar (ds : List Nat) (h : ∀ d ∈ ds, d < 10) :
    parseDigits (ds.map digitChar) = some ds := by
  induction ds with
  | nil => rfl
  | cons d ds ih =>
    simp only [List.map_cons, parseDigits]
    rw [charToDigit_digitChar d (h d (List.mem_cons_self d ds))]
    rw [ih fun x hx => h x (List.mem_cons_of_mem d hx)]

/-- A run of zero digits contributes nothing to the value. -/
theorem ofDigits_replicate_zero (k : Nat) :
    Nat.ofDigits 10 (List.replicate k 0) = 0 := by
  induction k with
  | zero => rfl
  | succ n ih => rw [List.replicate_succ, Nat.ofDigits_cons, ih]

/-- Parsing the zero-padded decimal rendering of a natural number
recovers the number, for any positive padding width. -/
theorem parseNatChars_padChars (w n : Nat) (hw : 0 < w) :
    parseNatChars (padChars w (natChars n)) = some n := by
  have hdig : ∀ d ∈ (Nat.digits 10 n).reverse, d < 10 := fun d hd =>
    Nat.digits_lt_base (by norm_num) (List.mem_reverse.mp hd)
  have h1 : parseDigits (natChars n) = some ((Nat.digits 10 n).reverse) :=
    parseDigits_map_digitChar _ hdig
  have h0 := parseDigits_replicate_zero (w - (natChars n).length)
  have happ := parseDigits_append _ _ _ _ h0 h1
  have hne : padChars w (natChars n) ≠ [] := by
    rw [padChars]
    intro hcontra
    rcases List.append_eq_nil.mp hcontra with ⟨ha, hb⟩
    rw [List.replicate_eq_nil_iff] at ha
    rw [hb] at ha
    simp at ha
    omega
  rw [parseNatChars, if_neg (by simpa [List.isEmpty_iff] using hne)]
  rw [show padChars w (natChars n)
      = List.replicate (w - (natChars n).length) '0' ++ natChars n from rfl]
  rw [happ]
  simp only [Option.map_some']
  congr 1
  rw [List.reverse_append, List.reverse_replicate, List.reverse_reverse]
  rw [Nat.ofDigits_append, ofDigits_replicate_zero, Nat.ofDigits_digits]
  simp

/-- The dash separator never occurs in a zero-padded decimal rendering. -/
theorem dash_not_mem_padChars (w n : Nat) :
    '-' ∉ padChars w (natChars n) := by
  intro h
  rw [padChars] at h
  rcases List.mem_append.mp h with h | h
  · exact absurd (List.eq_of_mem_replicate h) (by decide)
  · rw [natChars] at h
    obtain ⟨d, hd, hdc⟩ := List.mem_map.mp h
    have hlt : d < 10 :=
      Nat.digits_lt_base (by norm_num) (List.mem_reverse.mp hd)
    exact digitChar_ne_dash d hlt hdc

/-- Parsing the strftime rendering of a date recovers the date. -/
theorem parseDate_formatDate (d : Date) : parseDate (formatDate d) = some d := by
  have hdata : (formatDate d).data
      = padChars 4 (natChars d.year) ++
        '-' :: (padChars 2 (natChars d.month) ++
        '-' :: padChars 2 (natChars d.day)) := by
    rw [formatDate]
    rw [show ∀ a b : String, (a ++ b).data = a.data ++ b.data from fun a b => rfl]
    rw [show ∀ a b : String, (a ++ b).data = a.data ++ b.data from fun a b => rfl]
    rw [show ∀ a b : String, (a ++ b).data = a.data ++ b.data from fun a b => rfl]
    rw [show ∀ a b : String, (a ++ b).data = a.data ++ b.data from fun a b => rfl]
    rw [show ("-" : String).data = ['-'] from rfl]
    rw [show ∀ w n, (padNum w n).data = padChars w (natChars n) from fun w n => rfl]
    rw [show ∀ w n, (padNum w n).data = padChars w (natChars n) from fun w n => rfl]
    rw [show ∀ w n, (padNum w n).data = padChars w (natChars n) from fun w n => rfl]
    simp [List.append_assoc]
  have hsplit : splitOnChar '-' (formatDate d).data
      = [padChars 4 (natChars d.year), padChars 2 (natChars d.month),
         padChars 2 (natChars d.day)] := by
    rw [hdata]
    rw [splitOnChar_append_sep '-' _ _ (dash_not_mem_padChars 4 d.year)]
    rw [splitOnChar_append_sep '-' _ _ (dash_not_mem_padChars 2 d.month)]
    rw [splitOnChar_no_sep '-' _ (dash_not_mem_padChars 2 d.day)]
  rw [parseDate, pySplit, hsplit]
  simp only [List.map_cons, List.map_nil]
  simp only [show ∀ l : List Char, parseNat (String.mk l) = parseNatChars l
      from fun l => rfl]
  rw [parseNatChars_padChars 4 d.year (by norm_num)]
  rw [parseNatChars_padChars 2 d.month (by norm_num)]
  rw [parseNatChars_padChars 2 d.day (by norm_num)]

/-- C9: for every stored Project record, the serialized tech_stack
sequence rejoined on the comma reproduces the stored technology field,
and the serialized date_created text re-parsed reproduces the stored
creation date; the two serializations are the ones Project.to_dict
emits. -/
theorem project_serialization_roundtrip (p : Project) (d : Date)
    (h : p.date_created = some d) :
    (Project.to_dict p).lookup "tech_stack"
      = some (JValue.arr ((splitTechStack p.tech_stack).map JValue.s)) ∧
    pyJoin ',' (splitTechStack p.tech_stack) = p.tech_stack ∧
    (Project.to_dict p).lookup "date_created" = some (JValue.s (formatDate d)) ∧
    parseDate (formatDate d) = some d := by
  refine ⟨rfl, ?_, ?_, parseDate_formatDate d⟩
  · rw [splitTechStack]
    by_cases hs : p.tech_stack = ""
    · rw [if_pos hs, hs]
      rfl
    · rw [if_neg hs]
      exact pyJoin_pySplit ',' p.tech_stack
  · rw [show (Project.to_dict p).lookup "date_created"
        = some (serializeDate p.date_created) from rfl]
    rw [h]
    rfl

/-- C9 witness: the concrete test project with technology field
`Python,Flask,SQLite` and creation date 2025-01-01. -/
theorem project_serialization_roundtrip_witness :
    exProject.date_created = some ⟨2025, 1, 1⟩ ∧
    ((Project.to_dict exProject).lookup "tech_stack"
      = some (JValue.arr ((splitTechStack exProject.tech_stack).map JValue.s)) ∧
    pyJoin ',' (splitTechStack exProject.tech_stack) = exProject.tech_stack ∧
    (Project.to_dict exProject).lookup "date_created"
      = some (JValue.s (formatDate ⟨2025, 1, 1⟩)) ∧
    parseDate (formatDate ⟨2025, 1, 1⟩) = some ⟨2025, 1, 1⟩) :=
  ⟨rfl, project_serialization_roundtrip exProject ⟨2025, 1, 1⟩ rfl⟩

/-! Lemmas about the grouping loop of get_skills, for C7. -/

/-- Association-list lookup at the head key. -/
theorem lookup_cons_of_eq {α β : Type _} [BEq α] [LawfulBEq α] {c k : α} (v : β)
    (es : List (α × β)) (h : c = k) : List.lookup c ((k, v) :: es) = some v := by
  simp [List.lookup, h]

/-- Association-list lookup past a different head key. -/
theorem lookup_cons_of_ne {α β : Type _} [BEq α] [LawfulBEq α] {c k : α} (v : β)
    (es : List (α × β)) (h : ¬c = k) :
    List.lookup c ((k, v) :: es) = List.lookup c es := by
  simp [List.lookup, beq_eq_false_iff_ne.mpr h]

/-- Looking a category up after one grouping step: the step appends its
value to that category's list and leaves every other category alone. -/
theorem insertGrouped_lookup (groups : List (String × List (List (String × JValue))))
    (cat : String) (v : List (String × JValue)) (c : String) :
    (insertGrouped groups cat v).lookup c =
      if c = cat then some (((groups.lookup c).getD []) ++ [v])
      else groups.lookup c := by
  induction groups with
  | nil =>
    show List.lookup c [(cat, [v])] = _
    by_cases h : c = cat
    · rw [lookup_cons_of_eq _ _ h, if_pos h]
      rfl
    · rw [lookup_cons_of_ne _ _ h, if_neg h]
  | cons g rest ih =>
    obtain ⟨gc, gvs⟩ := g
    simp only [insertGrouped]
    by_cases hgc : gc = cat
    · rw [if_pos hgc]
      by_cases hc : c = gc
      · rw [lookup_cons_of_eq _ _ hc, if_pos (hc.trans hgc),
          lookup_cons_of_eq _ _ hc]
        rfl
      · rw [lookup_cons_of_ne _ _ hc,
          if_neg fun hh => hc (hh.trans hgc.symm),
          lookup_cons_of_ne _ _ hc]
    · rw [if_neg hgc]
      by_cases hc : c = gc
      · rw [lookup_cons_of_eq _ _ hc,
          if_neg fun hh => hgc ((hc.symm.trans hh).symm ▸ rfl),
          lookup_cons_of_eq _ _ hc]
      · rw [lookup_cons_of_ne _ _ hc, ih, lookup_cons_of_ne _ _ hc]

/-- Keys after one grouping step: unchanged for a known category, the
new category appended at the end otherwise. -/
theorem insertGrouped_keys (groups : List (String × List (List (String × JValue))))
    (cat : String) (v : List (String × JValue)) :
    (insertGrouped groups cat v).map Prod.fst =
      if cat ∈ groups.map Prod.fst then groups.map Prod.fst
      else groups.map Prod.fst ++ [cat] := by
  induction groups with
  | nil => simp [insertGrouped]
  | cons g rest ih =>
    obtain ⟨gc, gvs⟩ := g
    simp only [insertGrouped]
    by_cases hgc : gc = cat
    · rw [if_pos hgc]
      simp [hgc]
    · rw [if_neg hgc]
      simp only [List.map_cons]
      rw [ih]
      by_cases hmem : cat ∈ rest.map Prod.fst
      · rw [if_pos hmem]
        rw [if_pos (show cat ∈ (gc, gvs).1 :: rest.map Prod.fst from
          List.mem_cons_of_mem _ hmem)]
      · have hni : cat ∉ (gc, gvs).1 :: rest.map Prod.fst := by
          intro hh
          rcases List.mem_cons.mp hh with hh | hh
          · exact hgc hh.symm
          · exact hmem hh
        rw [if_neg hmem, if_neg hni]
        rfl

/-- Values after one grouping step, flattened: a permutation of the old
flattened values with the new value appended. -/
theorem insertGrouped_join_perm (groups : List (String × List (List (String × JValue))))
    (cat : String) (v : List (String × JValue)) :
    List.Perm ((insertGrouped groups cat v).map Prod.snd).flatten
      ((groups.map Prod.snd).flatten ++ [v]) := by
  induction groups with
  | nil => simp [insertGrouped]
  | cons g rest ih =>
    obtain ⟨gc, gvs⟩ := g
    simp only [insertGrouped]
    by_cases hgc : gc = cat
    · rw [if_pos hgc]
      simp only [List.map_cons, List.flatten_cons]
      rw [List.append_assoc, List.append_assoc]
      exact List.Perm.append_left gvs List.perm_append_comm
    · rw [if_neg hgc]
      simp only [List.map_cons, List.flatten_cons]
      rw [List.append_assoc]
      exact List.Perm.append_left gvs ih

/-- The first-seen trace depends on the seen accumulator only through
membership. -/
theorem firstSeenFrom_congr (s₁ s₂ : List String) (h : ∀ x, x ∈ s₁ ↔ x ∈ s₂)
    (l : List String) : firstSeenFrom s₁ l = firstSeenFrom s₂ l := by
  induction l generalizing s₁ s₂ with
  | nil => rfl
  | cons c cs ih =>
    simp only [firstSeenFrom]
    by_cases hc : c ∈ s₁
    · rw [if_pos hc, if_pos ((h c).mp hc), ih s₁ s₂ h]
    · rw [if_neg hc, if_neg fun hh => hc ((h c).mpr hh)]
      exact congrArg (List.cons c)
        (ih (c :: s₁) (c :: s₂) fun x => by simp [List.mem_cons, h x])

/-- Keys produced by the whole grouping loop: the accumulator's keys
followed by the categories in first-seen order. -/
theorem foldl_insertGrouped_keys (skills : List Skill)
    (acc : List (String × List (List (String × JValue)))) :
    ((skills.foldl (fun a sk => insertGrouped a sk.category (serializeSkillApi sk)) acc).map
        Prod.fst) =
      acc.map Prod.fst ++ firstSeenFrom (acc.map Prod.fst) (skills.map Skill.category) := by
  induction skills generalizing acc with
  | nil => simp [firstSeenFrom]
  | cons sk rest ih =>
    simp only [List.foldl_cons, List.map_cons, firstSeenFrom]
    rw [ih, insertGrouped_keys]
    by_cases h : sk.category ∈ acc.map Prod.fst
    · rw [if_pos h, if_pos h]
    · rw [if_neg h, if_neg h]
      rw [firstSeenFrom_congr (acc.map Prod.fst ++ [sk.category])
        (sk.category :: acc.map Prod.fst)
        (fun x => by simp [or_comm]) (rest.map Skill.category)]
      simp

/-- Lookup after the whole grouping loop: each category's list is the
accumulator's list extended by the serialized skills of that category,
in their original order. -/
theorem foldl_insertGrouped_lookup (skills : List Skill)
    (acc : List (String × List (List (String × JValue)))) (c : String) :
    (skills.foldl (fun a sk => insertGrouped a sk.category (serializeSkillApi sk)) acc).lookup
        c =
      match acc.lookup c with
      | some vs =>
        some (vs ++ (skills.filter fun sk => sk.category == c).map serializeSkillApi)
      | none =>
        if c ∈ skills.map Skill.category
        then some ((skills.filter fun sk => sk.category == c).map serializeSkillApi)
        else none := by
  induction skills generalizing acc with
  | nil => cases h : acc.lookup c <;> simp [h]
  | cons sk rest ih =>
    simp only [List.foldl_cons]
    rw [ih, insertGrouped_lookup]
    by_cases hc : c = sk.category
    · have hbeq : (sk.category == c) = true := beq_iff_eq.mpr hc.symm
      rw [if_pos hc]
      cases h : acc.lookup c with
      | some vs => simp [h, List.filter_cons, hbeq, List.append_assoc]
      | none => simp [h, List.filter_cons, hbeq, hc]
    · have hbeq : (sk.category == c) = false :=
        beq_eq_false_iff_ne.mpr fun hh => hc hh.symm
      rw [if_neg hc]
      cases h : acc.lookup c with
      | some vs => simp [h, List.filter_cons, hbeq]
      | none => simp [h, List.filter_cons, hbeq, hc, List.mem_cons]

/-- Flattened values of the whole grouping loop: a permutation of the
accumulator's flattened values followed by all serialized skills. -/
theorem foldl_insertGrouped_join (skills : List Skill)
    (acc : List (String × List (List (String × JValue)))) :
    List.Perm
      (((skills.foldl (fun a sk => insertGrouped a sk.category (serializeSkillApi sk)) acc).map
          Prod.snd).flatten)
      ((acc.map Prod.snd).flatten ++ skills.map serializeSkillApi) := by
  induction skills generalizing acc with
  | nil => simp
  | cons sk rest ih =>
    simp only [List.foldl_cons, List.map_cons]
    refine (ih (insertGrouped acc sk.category (serializeSkillApi sk))).trans ?_
    refine ((insertGrouped_join_perm acc sk.category
      (serializeSkillApi sk)).append_right (rest.map serializeSkillApi)).trans ?_
    rw [List.append_assoc]
    exact List.Perm.refl _

/-- C7: list_skills_by_category partitions the skill set: the groups'
keys are the skills' categories in first-seen order, each category's
group is exactly the ordered serialized skills of that category, and
the groups' contents taken together are a permutation of the serialized
full skill set. -/
theorem get_skills_partition (skills : List Skill) :
    ((groupSkills skills).map Prod.fst
        = firstSeenFrom [] (skills.map Skill.category)) ∧
    (∀ c : String, (groupSkills skills).lookup c =
      if c ∈ skills.map Skill.category
      then some ((skills.filter fun sk => sk.category == c).map serializeSkillApi)
      else none) ∧
    List.Perm ((groupSkills skills).map Prod.snd).flatten
      (skills.map serializeSkillApi) := by
  refine ⟨?_, ?_, ?_⟩
  · have h := foldl_insertGrouped_keys skills []
    simpa [groupSkills] using h
  · intro c
    have h := foldl_insertGrouped_lookup skills [] c
    simpa [groupSkills, List.lookup] using h
  · have h := foldl_insertGrouped_join skills []
    simpa [groupSkills] using h

end Portfolio
